import Mathlib

/-!
Verification of the dnsur stub-resolver core.

Shallow embedding of the three source files (`src/addr.rs`,
`src/resolvers/resolv.rs`, `src/lib.rs`).  The `domain` crate and the
`lookups::udp` / `lookups::tcp` transport modules are external to the
sources under verification; they appear here only at their interface
boundary (parse outcomes as data, transport calls as oracle functions).

Conventions:
- Rust `u8`/`u16`/`u32` values are `Nat`s; where the 16-bit width matters
  (wire bytes) the split `n / 256` / `n % 256` is explicit and theorems
  carry the `< 65536` bound that the Rust type guarantees.
- `Duration` values are the TTL in seconds (`Ttl::into_duration` turns the
  u32 TTL into a seconds Duration).
- A Rust `Iterator` is consumed by its caller until the first `None`; the
  consumption loop is embedded structurally.
-/

/-- Error kinds of `dnsaur::errors::Error` that the resolver core can
produce: name-parse failures from `UncertainName::from_str` /
`into_absolute`, message-build failures from `MessageBuilder::from_target`
and `push`, and fatal transport failures. -/
inductive Error where
  | nameParse : Error
  | appendError : Error
  | pushError : Error
  | transport : Nat → Error
deriving DecidableEq

/-- `std::net::IpAddr`: a v4 or v6 address, payload abstracted to the
numeric address value. -/
inductive IpAddr where
  | v4 : Nat → IpAddr
  | v6 : Nat → IpAddr
deriving DecidableEq

/-- One answer-section record as the `domain` crate's `RecordSection`
iterator yields it: the envelope (record type, TTL) is parsed, but the
rdata is still raw bytes — `into_record::<A>()` / `into_record::<Aaaa>()`
decode it only when `Iter::next` reaches the record.  Record types carry
their IANA numbers: A = 1, AAAA = 28. -/
structure Rec where
  rty : Nat
  ttl : Nat
  rdata : List Nat
deriving DecidableEq

/-- One item yielded by the `RecordSection` iterator: `Ok(record)` when
the record envelope parsed, `Err(_)` when it did not.  The rdata of an
`Ok` record may still fail to decode later. -/
inductive SectItem where
  | ok : Rec → SectItem
  | err : SectItem
deriving DecidableEq

/-- The answer section as the sequence of envelope-parse outcomes the
`RecordSection` iterator yields. -/
abbrev Sect := List SectItem

/-- `rdata::A::parse` as invoked by `into_record::<A>()`: the rdata
decodes exactly when it is four octets. -/
def parseA (rdata : List Nat) : Option Nat :=
  if rdata.length = 4 then some (rdata.foldl (fun acc b => acc * 256 + b) 0)
  else none

/-- `rdata::Aaaa::parse` as invoked by `into_record::<Aaaa>()`: the rdata
decodes exactly when it is sixteen octets. -/
def parseAaaa (rdata : List Nat) : Option Nat :=
  if rdata.length = 16 then some (rdata.foldl (fun acc b => acc * 256 + b) 0)
  else none

/-- `Iter::next` from `src/addr.rs`.  Outcomes: `some (some (pair, rest))`
— the item is an `Ok` A/AAAA record whose rdata decodes, a pair is
yielded; `some none` — the call returns `None` (empty section, envelope
parse error, or non-address record type), ending consumption; `none` —
the call PANICS, because the item is an `Ok` A/AAAA record whose rdata
does not decode and `into_record().unwrap()` unwraps the parse error
(`addr.rs` lines 18 and 24). -/
def Iter.next : Sect → Option (Option ((IpAddr × Nat) × Sect))
  | [] => some none
  | SectItem.err :: _ => some none
  | SectItem.ok r :: rest =>
    if r.rty = 1 then
      match parseA r.rdata with
      | some v => some (some ((IpAddr.v4 v, r.ttl), rest))
      | none => none
    else if r.rty = 28 then
      match parseAaaa r.rdata with
      | some v => some (some ((IpAddr.v6 v, r.ttl), rest))
      | none => none
    else some none

/-- Full consumption of `Iter` by a caller (`flat_map` / `FromIterator`):
items are taken until `Iter::next` returns `None`; a panic inside any
`next` call aborts the whole consumption, modelled as `none`. -/
def collectAddrs : Sect → Option (List (IpAddr × Nat))
  | [] => some []
  | SectItem.err :: _ => some []
  | SectItem.ok r :: rest =>
    if r.rty = 1 then
      match parseA r.rdata with
      | some v => (collectAddrs rest).map (fun l => (IpAddr.v4 v, r.ttl) :: l)
      | none => none
    else if r.rty = 28 then
      match parseAaaa r.rdata with
      | some v => (collectAddrs rest).map (fun l => (IpAddr.v6 v, r.ttl) :: l)
      | none => none
    else some []

/-- `collectAddrs` is exactly the loop that repeatedly calls `Iter.next`
until it returns no pair, propagating a panic. -/
theorem collectAddrs_eq_iter_loop (s : Sect) :
    collectAddrs s =
      match Iter.next s with
      | none => none
      | some none => some []
      | some (some (p, rest)) => (collectAddrs rest).map (fun l => p :: l) := by
  match s with
  | [] => rfl
  | SectItem.err :: rest => rfl
  | SectItem.ok r :: rest =>
    by_cases h1 : r.rty = 1
    · cases hp : parseA r.rdata <;> simp [collectAddrs, Iter.next, h1, hp]
    · by_cases h28 : r.rty = 28
      · cases hp : parseAaaa r.rdata <;>
          simp [collectAddrs, Iter.next, h1, h28, hp]
      · simp [collectAddrs, Iter.next, h1, h28]

/-- Modelled from the spec's words (§4.7, §8): extraction that yields
every decodable A/AAAA record of the section in order and silently skips
malformed items and non-address record types.  Used only to compare the
spec's claimed behaviour with the code's. -/
def specExtract : Sect → List (IpAddr × Nat)
  | [] => []
  | SectItem.err :: rest => specExtract rest
  | SectItem.ok r :: rest =>
    if r.rty = 1 then
      match parseA r.rdata with
      | some v => (IpAddr.v4 v, r.ttl) :: specExtract rest
      | none => specExtract rest
    else if r.rty = 28 then
      match parseAaaa r.rdata with
      | some v => (IpAddr.v6 v, r.ttl) :: specExtract rest
      | none => specExtract rest
    else specExtract rest

/-- An item the code's iterator steps over with a yield: an envelope-Ok
A/AAAA record whose rdata decodes. -/
def isOkAddr : SectItem → Bool
  | SectItem.ok r =>
    (decide (r.rty = 1) && (parseA r.rdata).isSome) ||
      (decide (r.rty = 28) && (parseAaaa r.rdata).isSome)
  | SectItem.err => false

/-- An item on which `Iter::next` panics: an envelope-Ok A/AAAA record
whose rdata does not decode. -/
def panicItem : SectItem → Bool
  | SectItem.ok r =>
    (decide (r.rty = 1) && (parseA r.rdata).isNone) ||
      (decide (r.rty = 28) && (parseAaaa r.rdata).isNone)
  | SectItem.err => false

/-- `IpAddresses` from `src/addr.rs`, at the boundary with the `domain`
crate: the held `Message<Vec<u8>>` is represented by the outcome of its
`answer()` call (`Ok(section)` when the answer section can be located and
walked, `Err(_)` when the message is malformed before it). -/
structure IpAddresses where
  answer : Except Unit Sect

/-- `IpAddresses::iter` from `src/addr.rs`:
`Iter(self.message.answer().unwrap())`.  The `.unwrap()` panics when
`answer()` is an `Err`; the panic is modelled as `none`. -/
def IpAddresses.iter (m : IpAddresses) : Option Sect :=
  match m.answer with
  | Except.ok s => some s
  | Except.error _ => none

/-- Building the extractor and consuming it: `some` of the extracted
pairs, or `none` when a panic occurs — at construction (the `answer()`
unwrap) or mid-iteration (the rdata unwrap). -/
def iterAddrs (m : IpAddresses) : Option (List (IpAddr × Nat)) :=
  match IpAddresses.iter m with
  | some s => collectAddrs s
  | none => none

/-- `name.trim_end_matches('.')` from `dns_with_search`
(`src/resolvers/resolv.rs` line 40): removes ALL trailing dots.  Names are
embedded as `List Char`. -/
def trimTrailingDots (name : List Char) : List Char :=
  (name.reverse.dropWhile (fun c => c = '.')).reverse

/-- Modelled from the spec's words (§4.2 step 2): strip a single trailing
dot if present.  Used only to compare the spec's claimed behaviour with
the code's. -/
def stripOneTrailingDot (name : List Char) : List Char :=
  match name.reverse with
  | '.' :: rest => rest.reverse
  | _ => name

/-- Claim C1: the address extractor yields exactly the A and AAAA records
of the answer section with non-address and malformed records skipped.
FALSE on the code twice over: a non-address record (CNAME, rtype 5) ends
consumption of `Iter`, hiding every later address record; and an A record
whose rdata does not decode makes `into_record().unwrap()` panic instead
of being skipped. -/
theorem c1_counterexample :
    (collectAddrs
        [SectItem.ok ⟨5, 300, []⟩, SectItem.ok ⟨1, 300, [1, 2, 3, 4]⟩] ≠
      some (specExtract
        [SectItem.ok ⟨5, 300, []⟩, SectItem.ok ⟨1, 300, [1, 2, 3, 4]⟩])) ∧
    (collectAddrs [SectItem.ok ⟨1, 300, [9]⟩] ≠
      some (specExtract [SectItem.ok ⟨1, 300, [9]⟩])) := by
  decide

/-- Claim C1 (amended): the extractor yields the address/TTL pairs, in
section order, of the maximal leading run of decodable A/AAAA records;
then, if the first item past that run is an A/AAAA record whose rdata
does not decode, the whole extraction panics, and otherwise (non-address
record type, envelope parse error, or end of section) the scan simply
ends there, skipping nothing. -/
theorem c1_amended (s : Sect) :
    collectAddrs s =
      if (s.dropWhile isOkAddr).head?.any panicItem then none
      else some (specExtract (s.takeWhile isOkAddr)) := by
  induction s with
  | nil => rfl
  | cons x rest ih =>
    match x with
    | SectItem.err =>
      simp [collectAddrs, List.dropWhile_cons, List.takeWhile_cons, isOkAddr,
        panicItem, specExtract]
    | SectItem.ok r =>
      by_cases h1 : r.rty = 1
      · cases hp : parseA r.rdata with
        | some v =>
          have hok : isOkAddr (SectItem.ok r) = true := by
            simp [isOkAddr, h1, hp]
          have hcol : collectAddrs (SectItem.ok r :: rest) =
              (collectAddrs rest).map (fun l => (IpAddr.v4 v, r.ttl) :: l) := by
            simp [collectAddrs, h1, hp]
          rw [hcol, ih]
          by_cases hb : (rest.dropWhile isOkAddr).head?.any panicItem = true
          · simp [List.dropWhile_cons, List.takeWhile_cons, hok, hb]
          · simp [List.dropWhile_cons, List.takeWhile_cons, hok, hb,
              specExtract, h1, hp]
        | none =>
          have hok : isOkAddr (SectItem.ok r) = false := by
            simp [isOkAddr, h1, hp]
          have hpn : panicItem (SectItem.ok r) = true := by
            simp [panicItem, h1, hp]
          simp [collectAddrs, h1, hp, List.dropWhile_cons, List.takeWhile_cons,
            hok, hpn]
      · by_cases h28 : r.rty = 28
        · cases hp : parseAaaa r.rdata with
          | some v =>
            have hok : isOkAddr (SectItem.ok r) = true := by
              simp [isOkAddr, h1, h28, hp]
            have hcol : collectAddrs (SectItem.ok r :: rest) =
                (collectAddrs rest).map (fun l => (IpAddr.v6 v, r.ttl) :: l) := by
              simp [collectAddrs, h1, h28, hp]
            rw [hcol, ih]
            by_cases hb : (rest.dropWhile isOkAddr).head?.any panicItem = true
            · simp [List.dropWhile_cons, List.takeWhile_cons, hok, hb]
            · simp [List.dropWhile_cons, List.takeWhile_cons, hok, hb,
                specExtract, h1, h28, hp]
          | none =>
            have hok : isOkAddr (SectItem.ok r) = false := by
              simp [isOkAddr, h1, h28, hp]
            have hpn : panicItem (SectItem.ok r) = true := by
              simp [panicItem, h1, h28, hp]
            simp [collectAddrs, h1, h28, hp, List.dropWhile_cons,
              List.takeWhile_cons, hok, hpn]
        · have hok : isOkAddr (SectItem.ok r) = false := by
            simp [isOkAddr, h1, h28]
          have hpn : panicItem (SectItem.ok r) = false := by
            simp [panicItem, h1, h28]
          simp [collectAddrs, h1, h28, List.dropWhile_cons, List.takeWhile_cons,
            hok, hpn, specExtract]

/-- Claim C7: a message whose answer section is missing or unparsable
yields an immediately-empty sequence and never panics.  FALSE on the
code: `IpAddresses::iter` calls `.unwrap()` on `Message::answer()`, so a
message whose answer section cannot be located panics instead of yielding
the empty sequence. -/
theorem c7_counterexample :
    iterAddrs ⟨Except.error ()⟩ ≠ some [] := by
  decide

theorem collectAddrs_isSome_of_no_panic (s : Sect)
    (h : ∀ x ∈ s, panicItem x = false) : ∃ l, collectAddrs s = some l := by
  induction s with
  | nil => exact ⟨[], rfl⟩
  | cons x rest ih =>
    have hx := h x (by simp)
    match x with
    | SectItem.err => exact ⟨[], rfl⟩
    | SectItem.ok r =>
      by_cases h1 : r.rty = 1
      · cases hp : parseA r.rdata with
        | some v =>
          obtain ⟨l, hl⟩ := ih (fun y hy => h y (by simp [hy]))
          exact ⟨(IpAddr.v4 v, r.ttl) :: l, by simp [collectAddrs, h1, hp, hl]⟩
        | none => simp [panicItem, h1, hp] at hx
      · by_cases h28 : r.rty = 28
        · cases hp : parseAaaa r.rdata with
          | some v =>
            obtain ⟨l, hl⟩ := ih (fun y hy => h y (by simp [hy]))
            exact ⟨(IpAddr.v6 v, r.ttl) :: l,
              by simp [collectAddrs, h1, h28, hp, hl]⟩
          | none => simp [panicItem, h1, h28, hp] at hx
        · exact ⟨[], by simp [collectAddrs, h1, h28]⟩

/-- Claim C7 (amended): when the answer section parses and the scan meets
no A/AAAA record with undecodable rdata, iteration yields a sequence —
in particular an empty section yields the empty sequence; but when the
answer section cannot be located the extractor's construction panics,
and an A/AAAA record whose rdata does not decode panics mid-iteration —
neither case yields an empty sequence. -/
theorem c7_amended (m : IpAddresses) :
    (∀ s, m.answer = Except.ok s → (∀ x ∈ s, panicItem x = false) →
      ∃ l, iterAddrs m = some l) ∧
    (m.answer = Except.ok [] → iterAddrs m = some []) ∧
    (∀ e, m.answer = Except.error e → iterAddrs m = none) ∧
    (∀ s r rest, m.answer = Except.ok s → s = SectItem.ok r :: rest →
      panicItem (SectItem.ok r) = true → iterAddrs m = none) := by
  refine ⟨?_, ?_, ?_, ?_⟩
  · intro s hs hnp
    obtain ⟨l, hl⟩ := collectAddrs_isSome_of_no_panic s hnp
    exact ⟨l, by simp [iterAddrs, IpAddresses.iter, hs, hl]⟩
  · intro hs
    simp [iterAddrs, IpAddresses.iter, hs, collectAddrs]
  · intro e he
    simp [iterAddrs, IpAddresses.iter, he]
  · intro s r rest hm hs hp
    subst hs
    simp only [panicItem, Bool.or_eq_true, Bool.and_eq_true, decide_eq_true_eq,
      Option.isNone_iff_eq_none] at hp
    rcases hp with ⟨h1, hn⟩ | ⟨h28, hn⟩
    · simp [iterAddrs, IpAddresses.iter, hm, collectAddrs, h1, hn]
    · have h1 : ¬ r.rty = 1 := by omega
      simp [iterAddrs, IpAddresses.iter, hm, collectAddrs, h1, h28, hn]

/-- Witness for the amended C7 theorem at a concrete message with an
empty (but present) answer section. -/
theorem c7_amended_witness :
    iterAddrs ⟨Except.ok []⟩ = some [] :=
  (c7_amended ⟨Except.ok []⟩).2.1 rfl

/-- Claim C8: exactly one trailing dot is stripped before search
expansion, so a name ending in several dots keeps all but the last.
FALSE on the code: `trim_end_matches('.')` strips every trailing dot, so
`"a.."` becomes `"a"`, not the `"a."` the claim requires. -/
theorem c8_counterexample :
    trimTrailingDots ['a', '.', '.'] ≠ stripOneTrailingDot ['a', '.', '.'] := by
  decide

/-- Claim C8 (amended): before search expansion ALL trailing dots are
stripped from the input name — the result has no trailing dot and differs
from the input only by a (possibly empty) run of trailing dots. -/
theorem c8_amended (name : List Char) :
    (trimTrailingDots name).getLast? ≠ some '.' ∧
      ∃ k, name = trimTrailingDots name ++ List.replicate k '.' := by
  constructor
  · intro h
    have h1 : (name.reverse.dropWhile (fun c => c = '.')).head? = some '.' := by
      simpa [trimTrailingDots, List.getLast?_reverse] using h
    have h2 := List.head?_dropWhile_not (fun c => c = '.') name.reverse
    rw [h1] at h2
    simp at h2
  · refine ⟨(name.reverse.takeWhile (fun c => c = '.')).length, ?_⟩
    have htk : ∀ c ∈ name.reverse.takeWhile (fun c => c = '.'), c = '.' := by
      intro c hc
      have := List.takeWhile_subset (p := fun c => c = '.') (l := name.reverse)
      simpa using List.mem_takeWhile_imp hc
    have hrep : name.reverse.takeWhile (fun c => c = '.') =
        List.replicate (name.reverse.takeWhile (fun c => c = '.')).length '.' :=
      List.eq_replicate_of_mem htk
    calc name = (name.reverse.takeWhile (fun c => c = '.') ++
              name.reverse.dropWhile (fun c => c = '.')).reverse := by
            rw [List.takeWhile_append_dropWhile, List.reverse_reverse]
      _ = trimTrailingDots name ++
            (name.reverse.takeWhile (fun c => c = '.')).reverse := by
            rw [List.reverse_append]; rfl
      _ = trimTrailingDots name ++
            List.replicate (name.reverse.takeWhile (fun c => c = '.')).length '.' := by
            rw [congrArg List.reverse hrep, List.reverse_replicate]

/-- A DNS question as `domain::base::Question`: an owner name (a list of
labels, each a list of bytes), a record type, and a class.  The resolver
always passes `Class::IN` (= 1), but `create_message` is generic in the
question it receives. -/
structure Question where
  labels : List (List Nat)
  rtype : Nat
  qclass : Nat
deriving DecidableEq

/-- Uncompressed wire encoding of a domain name: each label as a length
byte followed by its bytes, terminated by the root's zero byte.  With a
single question and a root-owned OPT record the `StaticCompressor` in
`create_message` emits no compression pointers, so this is the exact
wire form of both names in the built message. -/
def encodeName : List (List Nat) → List Nat
  | [] => [0]
  | l :: ls => l.length :: (l ++ encodeName ls)

/-- A label the `domain` crate can encode: non-empty, at most 63 bytes,
every byte an octet. -/
def wfLabel (l : List Nat) : Bool :=
  decide (1 ≤ l.length) && decide (l.length ≤ 63) && l.all (fun b => decide (b < 256))

/-- A name the `domain` crate can encode: well-formed labels and a total
wire length of at most 255 octets. -/
def wfName (labels : List (List Nat)) : Bool :=
  labels.all wfLabel && decide ((encodeName labels).length ≤ 255)

/-- A question `MessageBuilder::push` can append: an encodable name and
16-bit type and class values. -/
def wfQuestion (q : Question) : Bool :=
  wfName q.labels && decide (q.rtype < 65536) && decide (q.qclass < 65536)

/-- `create_message` from `src/resolvers/resolv.rs`: the serialized bytes
of the query built by `MessageBuilder` — header with the given id and the
RD flag set, QDCOUNT 1, ARCOUNT 1, then the single question, then the OPT
record whose class field advertises the UDP payload size.  A question the
codec cannot encode fails with the propagated push error. -/
def create_message (id : Nat) (q : Question) (udp_payload_size : Nat) :
    Except Error (List Nat) :=
  if wfQuestion q then
    Except.ok
      (id / 256 % 256 :: id % 256 ::
        1 :: 0 ::
        0 :: 1 ::
        0 :: 0 ::
        0 :: 0 ::
        0 :: 1 ::
        (encodeName q.labels ++
          (q.rtype / 256 % 256 :: q.rtype % 256 ::
            q.qclass / 256 % 256 :: q.qclass % 256 ::
            0 ::
            0 :: 41 ::
            udp_payload_size / 256 % 256 :: udp_payload_size % 256 ::
            0 :: 0 :: 0 :: 0 ::
            0 :: 0 :: [])))
  else Except.error Error.pushError

/-- Decoder for an uncompressed wire-format name, with an explicit fuel
argument bounding the number of labels (structural recursion so concrete
messages evaluate). -/
def parseNameAux : Nat → List Nat → Option (List (List Nat) × List Nat)
  | _, [] => none
  | 0, _ :: _ => none
  | fuel + 1, n :: rest =>
    if n = 0 then some ([], rest)
    else if n ≤ 63 ∧ n ≤ rest.length then
      match parseNameAux fuel (rest.drop n) with
      | some (labs, rem) => some (rest.take n :: labs, rem)
      | none => none
    else none

/-- Decoder entry point for a name at the head of `bytes`; the byte count
itself bounds the label count. -/
def parseName (bytes : List Nat) : Option (List (List Nat) × List Nat) :=
  parseNameAux bytes.length bytes

/-- Decode one question: name, then 16-bit type and class. -/
def parseQuestion (bytes : List Nat) : Option (Question × List Nat) :=
  match parseName bytes with
  | none => none
  | some (labs, rem) =>
    match rem with
    | t1 :: t2 :: c1 :: c2 :: rem2 =>
      some (⟨labs, t1 * 256 + t2, c1 * 256 + c2⟩, rem2)
    | _ => none

/-- Decode a counted run of questions. -/
def parseQuestions : Nat → List Nat → Option (List Question × List Nat)
  | 0, bytes => some ([], bytes)
  | n + 1, bytes =>
    match parseQuestion bytes with
    | none => none
    | some (q, rem) =>
      match parseQuestions n rem with
      | none => none
      | some (qs, rem2) => some (q :: qs, rem2)

/-- A decoded resource record: owner name, type, class field, TTL field,
and raw rdata.  For an OPT record the class field carries the advertised
UDP payload size. -/
structure RawRecord where
  owner : List (List Nat)
  rty : Nat
  rclass : Nat
  rttl : Nat
  rdata : List Nat
deriving DecidableEq

/-- Decode one resource record: name, 16-bit type and class, 32-bit TTL,
16-bit rdata length, then that many rdata bytes. -/
def parseRecord (bytes : List Nat) : Option (RawRecord × List Nat) :=
  match parseName bytes with
  | none => none
  | some (labs, rem) =>
    match rem with
    | t1 :: t2 :: c1 :: c2 :: u1 :: u2 :: u3 :: u4 :: l1 :: l2 :: rem2 =>
      if l1 * 256 + l2 ≤ rem2.length then
        some
          (⟨labs, t1 * 256 + t2, c1 * 256 + c2,
              ((u1 * 256 + u2) * 256 + u3) * 256 + u4,
              rem2.take (l1 * 256 + l2)⟩,
            rem2.drop (l1 * 256 + l2))
      else none
    | _ => none

/-- Decode a counted run of resource records. -/
def parseRecords : Nat → List Nat → Option (List RawRecord × List Nat)
  | 0, bytes => some ([], bytes)
  | n + 1, bytes =>
    match parseRecord bytes with
    | none => none
    | some (r, rem) =>
      match parseRecords n rem with
      | none => none
      | some (rs, rem2) => some (r :: rs, rem2)

/-- A fully decoded message, as far as the round-trip property needs it:
transaction id, RD flag, question section, and additional section. -/
structure ParsedMsg where
  pid : Nat
  rd : Bool
  questions : List Question
  additionals : List RawRecord
deriving DecidableEq

/-- Decode a wire-format message: 12-byte header, then the counted
question / answer / authority / additional sections. -/
def parseMessage (bytes : List Nat) : Option ParsedMsg :=
  match bytes with
  | i1 :: i2 :: f1 :: _f2 :: q1 :: q2 :: a1 :: a2 :: n1 :: n2 :: r1 :: r2 :: body =>
    match parseQuestions (q1 * 256 + q2) body with
    | none => none
    | some (qs, rem) =>
      match parseRecords (a1 * 256 + a2) rem with
      | none => none
      | some (_, rem2) =>
        match parseRecords (n1 * 256 + n2) rem2 with
        | none => none
        | some (_, rem3) =>
          match parseRecords (r1 * 256 + r2) rem3 with
          | none => none
          | some (ars, _) => some ⟨i1 * 256 + i2, decide (f1 % 2 = 1), qs, ars⟩
  | _ => none

/-- The OPT record's advertised UDP payload size: the class field of the
first additional record of type 41, if any. -/
def optPayloadSize (m : ParsedMsg) : Option Nat :=
  match m.additionals.find? (fun r => decide (r.rty = 41)) with
  | some r => some r.rclass
  | none => none

theorem length_lt_length_encodeName (labels : List (List Nat)) :
    labels.length < (encodeName labels).length := by
  induction labels with
  | nil => simp [encodeName]
  | cons l ls ih => simp [encodeName]; omega

theorem parseNameAux_encodeName (labels : List (List Nat)) :
    ∀ (fuel : Nat) (rest : List Nat), labels.all wfLabel = true →
      labels.length < fuel →
      parseNameAux fuel (encodeName labels ++ rest) = some (labels, rest) := by
  induction labels with
  | nil =>
    intro fuel rest _ hf
    match fuel with
    | f + 1 => simp [encodeName, parseNameAux]
  | cons l ls ih =>
    intro fuel rest h hf
    have hwf : wfLabel l = true ∧ ls.all wfLabel = true := by
      simpa [List.all_cons, Bool.and_eq_true] using h
    have hlen : 1 ≤ l.length ∧ l.length ≤ 63 := by
      have := hwf.1
      simp [wfLabel, Bool.and_eq_true] at this
      exact ⟨this.1.1, this.1.2⟩
    match fuel with
    | f + 1 =>
      have hstep : encodeName (l :: ls) ++ rest =
          l.length :: (l ++ (encodeName ls ++ rest)) := by
        simp [encodeName]
      rw [hstep]
      rw [parseNameAux]
      rw [if_neg (by omega)]
      rw [if_pos ⟨hlen.2, by simp only [List.length_append]; omega⟩]
      rw [List.take_left, List.drop_left]
      have hf2 : ls.length < f := by
        simp only [List.length_cons] at hf
        omega
      have hih := ih f rest hwf.2 hf2
      rw [hih]

theorem parseName_encodeName (labels : List (List Nat)) (rest : List Nat)
    (h : labels.all wfLabel = true) :
    parseName (encodeName labels ++ rest) = some (labels, rest) := by
  apply parseNameAux_encodeName labels _ rest h
  calc labels.length < (encodeName labels).length := length_lt_length_encodeName labels
    _ ≤ (encodeName labels ++ rest).length := by simp

/-- Claim C9: for every transaction id, question, and UDP payload size, the
built query has the RD flag set, the given id, exactly one question, and
one additional OPT record advertising the payload size, and decoding the
built bytes recovers the identical question, id, and payload-size value. -/
theorem c9_create_message_roundtrip (id ps : Nat) (q : Question)
    (hid : id < 65536) (hps : ps < 65536) (hq : wfQuestion q = true) :
    ∃ bytes m, create_message id q ps = Except.ok bytes ∧
      parseMessage bytes = some m ∧
      m.pid = id ∧ m.rd = true ∧ m.questions = [q] ∧
      optPayloadSize m = some ps := by
  have hq0 := hq
  simp only [wfQuestion, wfName, Bool.and_eq_true, decide_eq_true_eq] at hq0
  obtain ⟨⟨⟨hlabels, _hle⟩, hrt⟩, hqc⟩ := hq0
  have hb1 : id / 256 % 256 * 256 + id % 256 = id := by omega
  have hb2 : q.rtype / 256 % 256 * 256 + q.rtype % 256 = q.rtype := by omega
  have hb3 : q.qclass / 256 % 256 * 256 + q.qclass % 256 = q.qclass := by omega
  have hb4 : ps / 256 % 256 * 256 + ps % 256 = ps := by omega
  have hname := parseNameAux_encodeName q.labels
    ((encodeName q.labels).length + 15)
    (q.rtype / 256 % 256 :: q.rtype % 256 ::
      q.qclass / 256 % 256 :: q.qclass % 256 ::
      0 ::
      0 :: 41 ::
      ps / 256 % 256 :: ps % 256 ::
      0 :: 0 :: 0 :: 0 ::
      0 :: 0 :: []) hlabels
    (Nat.lt_of_lt_of_le (length_lt_length_encodeName q.labels) (Nat.le_add_right _ 15))
  have hroot : ∀ (fuel : Nat) (rest : List Nat),
      parseNameAux (fuel + 1) (0 :: rest) = some ([], rest) := fun _ _ => rfl
  refine ⟨id / 256 % 256 :: id % 256 ::
      1 :: 0 ::
      0 :: 1 ::
      0 :: 0 ::
      0 :: 0 ::
      0 :: 1 ::
      (encodeName q.labels ++
        (q.rtype / 256 % 256 :: q.rtype % 256 ::
          q.qclass / 256 % 256 :: q.qclass % 256 ::
          0 ::
          0 :: 41 ::
          ps / 256 % 256 :: ps % 256 ::
          0 :: 0 :: 0 :: 0 ::
          0 :: 0 :: [])),
    ⟨id, true, [q], [⟨[], 41, ps, 0, []⟩]⟩, ?_, ?_, rfl, rfl, rfl, ?_⟩
  · simp [create_message, hq]
  · simp [parseMessage, parseQuestions, parseQuestion, parseRecords, parseRecord,
      parseName, hname, hroot, hb1, hb2, hb3, hb4]
  · simp [optPayloadSize, List.find?]

/-- Witness for C9 at a concrete id, question, and payload size. -/
theorem c9_roundtrip_witness :
    ∃ bytes m,
      create_message 4660 ⟨[[101, 120], [99, 111]], 1, 1⟩ 1232 = Except.ok bytes ∧
      parseMessage bytes = some m ∧
      m.pid = 4660 ∧ m.rd = true ∧
      m.questions = [⟨[[101, 120], [99, 111]], 1, 1⟩] ∧
      optPayloadSize m = some 1232 :=
  c9_create_message_roundtrip 4660 1232 ⟨[[101, 120], [99, 111]], 1, 1⟩
    (by decide) (by decide) (by decide)

/-- The transport a call went over. -/
inductive Proto where
  | udp : Proto
  | tcp : Proto
deriving DecidableEq

/-- One invocation of `lookups::udp::query` or `lookups::tcp::query` as
observed at that boundary: protocol, transaction id, the shared query
buffer, and the nameserver (socket addresses are abstracted to `Nat`). -/
structure Call where
  proto : Proto
  cid : Nat
  data : List Nat
  ns : Nat
deriving DecidableEq

/-- `query_question_and_nameserver` from `src/resolvers/resolv.rs`.  The
unshown `lookups::udp::query` / `lookups::tcp::query` transports are
oracle functions of the transaction id and shared query bytes (their
internal retries and timeouts are irrelevant at this layer); the random
`fastrand::u16` transaction id is a parameter.  Returns the ordered list
of transport calls made together with the function's result: the message
is built once, UDP is tried exactly when the serialized query fits the
advertised payload size, and every UDP outcome other than `Ok(Some(_))`
falls through to TCP. -/
def query_question_and_nameserver
    (udpQ tcpQ : Nat → List Nat → Except Error (Option IpAddresses))
    (id : Nat) (q : Question) (ns : Nat) (udp_payload_size : Nat) :
    List Call × Except Error (Option IpAddresses) :=
  match create_message id q udp_payload_size with
  | Except.error e => ([], Except.error e)
  | Except.ok data =>
    if data.length ≤ udp_payload_size then
      match udpQ id data with
      | Except.ok (some addrs) =>
        ([⟨Proto.udp, id, data, ns⟩], Except.ok (some addrs))
      | _ =>
        ([⟨Proto.udp, id, data, ns⟩, ⟨Proto.tcp, id, data, ns⟩], tcpQ id data)
    else
      ([⟨Proto.tcp, id, data, ns⟩], tcpQ id data)

/-- Claim C4: a question whose serialized query exceeds the configured UDP
payload size never touches the UDP path and goes straight to TCP; one
that fits attempts UDP first. -/
theorem c4_udp_size_gate
    (udpQ tcpQ : Nat → List Nat → Except Error (Option IpAddresses))
    (id : Nat) (q : Question) (ns : Nat) (ps : Nat) (data : List Nat)
    (hbuild : create_message id q ps = Except.ok data) :
    (ps < data.length →
      (query_question_and_nameserver udpQ tcpQ id q ns ps).1 =
        [⟨Proto.tcp, id, data, ns⟩]) ∧
    (data.length ≤ ps →
      ((query_question_and_nameserver udpQ tcpQ id q ns ps).1).head? =
        some ⟨Proto.udp, id, data, ns⟩) := by
  constructor
  · intro hgt
    simp [query_question_and_nameserver, hbuild, Nat.not_le_of_lt hgt]
  · intro hle
    cases hu : udpQ id data with
    | ok o =>
      cases o with
      | some m => simp [query_question_and_nameserver, hbuild, hle, hu]
      | none => simp [query_question_and_nameserver, hbuild, hle, hu]
    | error e => simp [query_question_and_nameserver, hbuild, hle, hu]

/-- Shared example oracles for concrete instantiations: a UDP path that
yields no usable response and a TCP path that fails fatally. -/
def udpNoneOracle : Nat → List Nat → Except Error (Option IpAddresses) :=
  fun _ _ => Except.ok none

def tcpErrOracle : Nat → List Nat → Except Error (Option IpAddresses) :=
  fun _ _ => Except.error (Error.transport 2)

/-- Witness for C4 at a concrete question whose 30-byte query fits a
1232-byte payload size: UDP is attempted first. -/
theorem c4_udp_size_gate_witness :
    ((query_question_and_nameserver udpNoneOracle tcpErrOracle 7
        ⟨[[97]], 1, 1⟩ 0 1232).1).head? =
      some ⟨Proto.udp, 7,
        [0, 7, 1, 0, 0, 1, 0, 0, 0, 0, 0, 1, 1, 97, 0, 0, 1, 0, 1, 0, 0, 41,
          4, 208, 0, 0, 0, 0, 0, 0], 0⟩ :=
  (c4_udp_size_gate udpNoneOracle tcpErrOracle 7 ⟨[[97]], 1, 1⟩ 0 1232
      _ (by rfl)).2 (by decide)

/-- Claim C5: every transport call of one question carries the same
transaction id and the identical query buffer — the serialized query that
`create_message` produced once — so a TCP fallback reuses exactly the
bytes and id of the UDP attempt. -/
theorem c5_shared_buffer
    (udpQ tcpQ : Nat → List Nat → Except Error (Option IpAddresses))
    (id : Nat) (q : Question) (ns : Nat) (ps : Nat) (data : List Nat)
    (hbuild : create_message id q ps = Except.ok data) :
    ∀ c ∈ (query_question_and_nameserver udpQ tcpQ id q ns ps).1,
      c.cid = id ∧ c.data = data := by
  intro c hc
  by_cases hle : data.length ≤ ps
  · cases hu : udpQ id data with
    | ok o =>
      cases o with
      | some m =>
        simp [query_question_and_nameserver, hbuild, hle, hu] at hc
        simp [hc]
      | none =>
        simp [query_question_and_nameserver, hbuild, hle, hu] at hc
        rcases hc with h | h <;> simp [h]
    | error e =>
      simp [query_question_and_nameserver, hbuild, hle, hu] at hc
      rcases hc with h | h <;> simp [h]
  · simp [query_question_and_nameserver, hbuild, hle] at hc
    simp [hc]

/-- Witness for C5 at the concrete question of the C4 witness, with a UDP
path that fails so that the TCP fallback call appears in the trace: that
call carries the same id and the same once-built bytes. -/
theorem c5_shared_buffer_witness :
    Call.cid ⟨Proto.tcp, 7,
        [0, 7, 1, 0, 0, 1, 0, 0, 0, 0, 0, 1, 1, 97, 0, 0, 1, 0, 1, 0, 0, 41,
          4, 208, 0, 0, 0, 0, 0, 0], 0⟩ = 7 ∧
      Call.data ⟨Proto.tcp, 7,
          [0, 7, 1, 0, 0, 1, 0, 0, 0, 0, 0, 1, 1, 97, 0, 0, 1, 0, 1, 0, 0, 41,
            4, 208, 0, 0, 0, 0, 0, 0], 0⟩ =
        [0, 7, 1, 0, 0, 1, 0, 0, 0, 0, 0, 1, 1, 97, 0, 0, 1, 0, 1, 0, 0, 41,
          4, 208, 0, 0, 0, 0, 0, 0] :=
  c5_shared_buffer udpNoneOracle tcpErrOracle 7 ⟨[[97]], 1, 1⟩ 0 1232
    _ (by rfl)
    ⟨Proto.tcp, 7,
      [0, 7, 1, 0, 0, 1, 0, 0, 0, 0, 0, 1, 1, 97, 0, 0, 1, 0, 1, 0, 0, 41,
        4, 208, 0, 0, 0, 0, 0, 0], 0⟩ (by decide)

/-- Claim C10: a UDP-path error never propagates: every error the
per-question transport returns comes from message construction or from
the TCP path, and after any UDP outcome other than a usable response the
TCP path is still attempted. -/
theorem c10_udp_errors_absorbed
    (udpQ tcpQ : Nat → List Nat → Except Error (Option IpAddresses))
    (id : Nat) (q : Question) (ns : Nat) (ps : Nat) :
    (∀ e, (query_question_and_nameserver udpQ tcpQ id q ns ps).2 = Except.error e →
      create_message id q ps = Except.error e ∨
        ∃ data, create_message id q ps = Except.ok data ∧
          tcpQ id data = Except.error e ∧
          ⟨Proto.tcp, id, data, ns⟩ ∈ (query_question_and_nameserver udpQ tcpQ id q ns ps).1) ∧
    (∀ data, create_message id q ps = Except.ok data → data.length ≤ ps →
      (∀ m, udpQ id data ≠ Except.ok (some m)) →
      ⟨Proto.tcp, id, data, ns⟩ ∈ (query_question_and_nameserver udpQ tcpQ id q ns ps).1) := by
  constructor
  · intro e he
    cases hb : create_message id q ps with
    | error e2 =>
      left
      simp [query_question_and_nameserver, hb] at he
      rw [he]

    | ok data =>
      right
      refine ⟨data, rfl, ?_⟩
      by_cases hle : data.length ≤ ps
      · cases hu : udpQ id data with
        | ok o =>
          cases o with
          | some m => simp [query_question_and_nameserver, hb, hle, hu] at he
          | none =>
            simp [query_question_and_nameserver, hb, hle, hu] at he ⊢
            exact he
        | error e2 =>
          simp [query_question_and_nameserver, hb, hle, hu] at he ⊢
          exact he
      · simp [query_question_and_nameserver, hb, hle] at he ⊢
        exact he
  · intro data hb hle hu
    cases hur : udpQ id data with
    | ok o =>
      cases o with
      | some m => exact absurd hur (hu m)
      | none => simp [query_question_and_nameserver, hb, hle, hur]
    | error e => simp [query_question_and_nameserver, hb, hle, hur]

/-- Witness for C10: with a UDP path returning no usable response and a
fatally failing TCP path, the TCP call is attempted. -/
theorem c10_udp_errors_absorbed_witness :
    ⟨Proto.tcp, 7,
        [0, 7, 1, 0, 0, 1, 0, 0, 0, 0, 0, 1, 1, 97, 0, 0, 1, 0, 1, 0, 0, 41,
          4, 208, 0, 0, 0, 0, 0, 0], 0⟩ ∈
      (query_question_and_nameserver udpNoneOracle tcpErrOracle 7
        ⟨[[97]], 1, 1⟩ 0 1232).1 :=
  (c10_udp_errors_absorbed udpNoneOracle tcpErrOracle 7 ⟨[[97]], 1, 1⟩ 0 1232).2
    _ (by rfl) (by decide)
    (fun m h => by simp [udpNoneOracle] at h)

/-- `x.iter()` applied to one branch's `Option<IpAddresses>` inside
`ipv4.iter().chain(ipv6.iter()).flat_map(|x| x.iter())`: a `None`
transport result contributes nothing; a present response is run through
the (panicking) extractor of `addr.rs`. -/
def branchAddrs : Option IpAddresses → Option (List (IpAddr × Nat))
  | none => some []
  | some m => iterAddrs m

/-- `query_name_and_nameserver` from `src/resolvers/resolv.rs`, after the
`monoio::join!` of the two `query_question_and_nameserver` calls: the two
branch outcomes are inputs.  `ipv4?` is checked before `ipv6?`, and on
success the IPv4 branch's pairs are chained before the IPv6 branch's.
The outer `Option` models a panic escaping from the extractor during the
merge. -/
def query_name_and_nameserver
    (r4 r6 : Except Error (Option IpAddresses)) :
    Option (Except Error (List (IpAddr × Nat))) :=
  match r4 with
  | Except.error e => some (Except.error e)
  | Except.ok o4 =>
    match r6 with
    | Except.error e => some (Except.error e)
    | Except.ok o6 =>
      match branchAddrs o4, branchAddrs o6 with
      | some l4, some l6 => some (Except.ok (l4 ++ l6))
      | _, _ => none

/-- A section item that is an envelope-Ok A record with decodable rdata. -/
def isARec : SectItem → Bool
  | SectItem.ok r => decide (r.rty = 1) && (parseA r.rdata).isSome
  | SectItem.err => false

/-- A section item that is an envelope-Ok AAAA record with decodable
rdata. -/
def isAaaaRec : SectItem → Bool
  | SectItem.ok r => decide (r.rty = 28) && (parseAaaa r.rdata).isSome
  | SectItem.err => false

/-- The address/TTL pair of a decodable address record (junk on other
items; only applied under an `isARec`/`isAaaaRec` hypothesis). -/
def pairOf : SectItem → (IpAddr × Nat)
  | SectItem.ok r =>
    if r.rty = 1 then
      match parseA r.rdata with
      | some v => (IpAddr.v4 v, r.ttl)
      | none => (IpAddr.v4 0, 0)
    else
      match parseAaaa r.rdata with
      | some v => (IpAddr.v6 v, r.ttl)
      | none => (IpAddr.v4 0, 0)
  | SectItem.err => (IpAddr.v4 0, 0)

theorem collectAddrs_allA (s : Sect) (h : ∀ x ∈ s, isARec x = true) :
    collectAddrs s = some (s.map pairOf) := by
  induction s with
  | nil => rfl
  | cons x rest ih =>
    have hx := h x (by simp)
    match x with
    | SectItem.ok r =>
      simp only [isARec, Bool.and_eq_true, decide_eq_true_eq] at hx
      obtain ⟨h1, hsome⟩ := hx
      obtain ⟨v, hv⟩ := Option.isSome_iff_exists.mp hsome
      simp [collectAddrs, h1, hv, pairOf,
        ih (fun y hy => h y (by simp [hy]))]
    | SectItem.err => simp [isARec] at hx

theorem collectAddrs_allAaaa (s : Sect) (h : ∀ x ∈ s, isAaaaRec x = true) :
    collectAddrs s = some (s.map pairOf) := by
  induction s with
  | nil => rfl
  | cons x rest ih =>
    have hx := h x (by simp)
    match x with
    | SectItem.ok r =>
      simp only [isAaaaRec, Bool.and_eq_true, decide_eq_true_eq] at hx
      obtain ⟨h28, hsome⟩ := hx
      obtain ⟨v, hv⟩ := Option.isSome_iff_exists.mp hsome
      have h1 : ¬ r.rty = 1 := by omega
      simp [collectAddrs, h1, h28, hv, pairOf,
        ih (fun y hy => h y (by simp [hy]))]
    | SectItem.err => simp [isAaaaRec] at hx

/-- Claim C6: the coordinator waits for both questions; either branch's
fatal error fails the whole call (IPv4's error observed first, the other
branch discarded); a `None` transport result contributes nothing without
being an error; and when both extractions complete without panicking the
merged output lists the IPv4 response's pairs first and the IPv6
response's second, each in its response's answer order. -/
theorem c6_coordinator_merge :
    (∀ (e : Error) (r6 : Except Error (Option IpAddresses)),
      query_name_and_nameserver (Except.error e) r6 = some (Except.error e)) ∧
    (∀ (o4 : Option IpAddresses) (e : Error),
      query_name_and_nameserver (Except.ok o4) (Except.error e) =
        some (Except.error e)) ∧
    (∀ (s4 s6 : Sect) (m4 m6 : IpAddresses) (l4 l6 : List (IpAddr × Nat)),
      m4.answer = Except.ok s4 → m6.answer = Except.ok s6 →
      collectAddrs s4 = some l4 → collectAddrs s6 = some l6 →
      query_name_and_nameserver (Except.ok (some m4)) (Except.ok (some m6)) =
        some (Except.ok (l4 ++ l6))) ∧
    (∀ (s6 : Sect) (m6 : IpAddresses) (l6 : List (IpAddr × Nat)),
      m6.answer = Except.ok s6 → collectAddrs s6 = some l6 →
      query_name_and_nameserver (Except.ok none) (Except.ok (some m6)) =
        some (Except.ok l6)) ∧
    (∀ (s4 s6 : Sect) (m4 m6 : IpAddresses),
      m4.answer = Except.ok s4 → m6.answer = Except.ok s6 →
      (∀ x ∈ s4, isARec x = true) → (∀ x ∈ s6, isAaaaRec x = true) →
      query_name_and_nameserver (Except.ok (some m4)) (Except.ok (some m6)) =
          some (Except.ok (s4.map pairOf ++ s6.map pairOf)) ∧
        (∀ x ∈ s4, ∃ v, (pairOf x).1 = IpAddr.v4 v) ∧
        (∀ x ∈ s6, ∃ v, (pairOf x).1 = IpAddr.v6 v)) := by
  refine ⟨fun e r6 => rfl, fun o4 e => rfl, ?_, ?_, ?_⟩
  · intro s4 s6 m4 m6 l4 l6 h4 h6 hc4 hc6
    simp [query_name_and_nameserver, branchAddrs, iterAddrs,
      IpAddresses.iter, h4, h6, hc4, hc6]
  · intro s6 m6 l6 h6 hc6
    simp [query_name_and_nameserver, branchAddrs, iterAddrs,
      IpAddresses.iter, h6, hc6]
  · intro s4 s6 m4 m6 h4 h6 ha hb
    refine ⟨?_, ?_, ?_⟩
    · have hc4 := collectAddrs_allA s4 ha
      have hc6 := collectAddrs_allAaaa s6 hb
      simp [query_name_and_nameserver, branchAddrs, iterAddrs,
        IpAddresses.iter, h4, h6, hc4, hc6]
    · intro x hx
      have hx2 := ha x hx
      match x with
      | SectItem.ok r =>
        simp only [isARec, Bool.and_eq_true, decide_eq_true_eq] at hx2
        obtain ⟨h1, hsome⟩ := hx2
        obtain ⟨v, hv⟩ := Option.isSome_iff_exists.mp hsome
        exact ⟨v, by simp [pairOf, h1, hv]⟩
      | SectItem.err => simp [isARec] at hx2
    · intro x hx
      have hx2 := hb x hx
      match x with
      | SectItem.ok r =>
        simp only [isAaaaRec, Bool.and_eq_true, decide_eq_true_eq] at hx2
        obtain ⟨h28, hsome⟩ := hx2
        obtain ⟨v, hv⟩ := Option.isSome_iff_exists.mp hsome
        have h1 : ¬ r.rty = 1 := by omega
        exact ⟨v, by simp [pairOf, h1, h28, hv]⟩
      | SectItem.err => simp [isAaaaRec] at hx2

/-- Witness for C6 at concrete responses: one decodable A record and one
decodable AAAA record merge to the IPv4 pair followed by the IPv6 pair. -/
theorem c6_coordinator_merge_witness :
    query_name_and_nameserver
        (Except.ok (some ⟨Except.ok [SectItem.ok ⟨1, 300, [10, 0, 0, 1]⟩]⟩))
        (Except.ok (some ⟨Except.ok [SectItem.ok
          ⟨28, 600, [0, 0, 0, 0, 0, 0, 0, 0, 0, 0, 0, 0, 0, 0, 0, 0]⟩]⟩)) =
      some (Except.ok
        ([(IpAddr.v4 167772161, 300)] ++ [(IpAddr.v6 0, 600)])) :=
  c6_coordinator_merge.2.2.1
    [SectItem.ok ⟨1, 300, [10, 0, 0, 1]⟩]
    [SectItem.ok ⟨28, 600, [0, 0, 0, 0, 0, 0, 0, 0, 0, 0, 0, 0, 0, 0, 0, 0]⟩]
    ⟨Except.ok [SectItem.ok ⟨1, 300, [10, 0, 0, 1]⟩]⟩
    ⟨Except.ok [SectItem.ok
      ⟨28, 600, [0, 0, 0, 0, 0, 0, 0, 0, 0, 0, 0, 0, 0, 0, 0, 0]⟩]⟩
    [(IpAddr.v4 167772161, 300)] [(IpAddr.v6 0, 600)]
    rfl rfl (by decide) (by decide)

/-- Number of dot characters in the name:
`memchr::Memchr::new(b'.', name.as_bytes()).count()`. -/
def countDots (name : List Char) : Nat :=
  name.count '.'

/-- `name.ends_with(".")`. -/
def endsWithDot (name : List Char) : Bool :=
  decide (name.getLast? = some '.')

/-- The `global_scope` test of `dns_with_search`
(`src/resolvers/resolv.rs` line 39):
`num_dots >= self.ndots as usize || name.ends_with(".")`. -/
def globalScope (ndots : Nat) (name : List Char) : Bool :=
  decide (countDots name ≥ ndots) || endsWithDot name

/-- Modelled from the spec's words (§4.2 step 1):
`global_scope = (dot_count >= ndots) OR (name ends with a dot)`.  Used
only to compare the spec's claimed test with the code's. -/
def spec_global_scope (ndots : Nat) (name : List Char) : Bool :=
  decide (countDots name ≥ ndots) || decide (name.getLast? = some '.')

/-- `search.trim_start_matches('.')`: drop every leading dot of a search
suffix. -/
def trimLeadingDots (s : List Char) : List Char :=
  s.dropWhile (fun c => c = '.')

/-- The candidate host names the global-scope loop of `dns_with_search`
builds, in configured search order: `host = name + "." + suffix` with the
suffix's leading dots trimmed. -/
def searchCandidates (name : List Char) (search : List (List Char)) :
    List (List Char) :=
  search.map (fun s => name ++ '.' :: trimLeadingDots s)

/-- `dns_lookup` from `src/resolvers/resolv.rs`, with the per-nameserver
outcome of `query_name_and_nameserver` for the fixed name as an oracle:
iterate the nameservers in order, return the first `Ok` result, and fall
back to an empty `Ok` collection when every nameserver errors. -/
def dns_lookup (qn : Nat → Except Error (List (IpAddr × Nat))) :
    List Nat → Except Error (List (IpAddr × Nat))
  | [] => Except.ok []
  | ns :: rest =>
    match qn ns with
    | Except.ok addrs => Except.ok addrs
    | Except.error _ => dns_lookup qn rest

/-- Outcome of one `dns_with_search` call: which candidate names were
attempted (in order, as the pre-parse strings handed to
`UncertainName::from_str`) and the returned result. -/
structure SearchOutcome where
  attempted : List (List Char)
  result : Except Error (List (IpAddr × Nat))

/-- The global-scope loop of `dns_with_search`: for each candidate in
order, parse it (`from_str`/`into_absolute`, modelled by the `parse`
oracle; its error propagates via `?`), run `dns_lookup`, and return the
first non-error lookup; an exhausted candidate list yields an empty `Ok`
collection. -/
def searchLoop (parse : List Char → Except Error (List Char))
    (qn : List Char → Nat → Except Error (List (IpAddr × Nat)))
    (nss : List Nat) : List (List Char) → SearchOutcome
  | [] => ⟨[], Except.ok []⟩
  | c :: rest =>
    match parse c with
    | Except.error e => ⟨[c], Except.error e⟩
    | Except.ok n =>
      match dns_lookup (qn n) nss with
      | Except.ok addrs => ⟨[c], Except.ok addrs⟩
      | Except.error _ =>
        let r := searchLoop parse qn nss rest
        ⟨c :: r.attempted, r.result⟩

/-- `dns_with_search` from `src/resolvers/resolv.rs`: compute
`global_scope`, strip trailing dots, then either run the search-suffix
loop over the candidates (global scope) or parse and look up the bare
name with no suffix. -/
def dns_with_search (parse : List Char → Except Error (List Char))
    (qn : List Char → Nat → Except Error (List (IpAddr × Nat)))
    (search : List (List Char)) (nss : List Nat) (ndots : Nat)
    (name : List Char) : SearchOutcome :=
  if globalScope ndots name then
    searchLoop parse qn nss (searchCandidates (trimTrailingDots name) search)
  else
    match parse (trimTrailingDots name) with
    | Except.error e => ⟨[trimTrailingDots name], Except.error e⟩
    | Except.ok n => ⟨[trimTrailingDots name], dns_lookup (qn n) nss⟩

theorem searchLoop_attempted_take (parse : List Char → Except Error (List Char))
    (qn : List Char → Nat → Except Error (List (IpAddr × Nat)))
    (nss : List Nat) (cands : List (List Char)) :
    ∃ k, (searchLoop parse qn nss cands).attempted = cands.take k := by
  induction cands with
  | nil => exact ⟨0, rfl⟩
  | cons c rest ih =>
    cases hp : parse c with
    | error e => exact ⟨1, by simp [searchLoop, hp]⟩
    | ok n =>
      cases hl : dns_lookup (qn n) nss with
      | ok addrs => exact ⟨1, by simp [searchLoop, hp, hl]⟩
      | error e =>
        obtain ⟨k, hk⟩ := ih
        exact ⟨k + 1, by simp [searchLoop, hp, hl, hk]⟩

/-- Claim C2: `global_scope` is computed as
`(dot count >= ndots) OR (trailing dot)`; when it is true, the names
attempted are exactly a leading run of the search-suffix candidates in
configured order; when it is false, the single attempted name is the bare
(dot-trimmed) name, with no search suffix applied. -/
theorem c2_global_scope_policy (parse : List Char → Except Error (List Char))
    (qn : List Char → Nat → Except Error (List (IpAddr × Nat)))
    (search : List (List Char)) (nss : List Nat) (ndots : Nat)
    (name : List Char) :
    (globalScope ndots name = spec_global_scope ndots name) ∧
    (globalScope ndots name = false →
      (dns_with_search parse qn search nss ndots name).attempted =
        [trimTrailingDots name]) ∧
    (globalScope ndots name = true →
      ∃ k, (dns_with_search parse qn search nss ndots name).attempted =
        (searchCandidates (trimTrailingDots name) search).take k) := by
  refine ⟨rfl, ?_, ?_⟩
  · intro hgs
    cases hp : parse (trimTrailingDots name) with
    | error e => simp [dns_with_search, hgs, hp]
    | ok n => simp [dns_with_search, hgs, hp]
  · intro hgs
    simpa [dns_with_search, hgs] using
      searchLoop_attempted_take parse qn nss
        (searchCandidates (trimTrailingDots name) search)

/-- Shared example oracles for concrete instantiations: a parse that
accepts every name, one that rejects every name, and per-nameserver
lookups that always succeed emptily or always fail. -/
def parseOkOracle : List Char → Except Error (List Char) :=
  fun n => Except.ok n

def parseErrOracle : List Char → Except Error (List Char) :=
  fun _ => Except.error Error.nameParse

def qnEmptyOracle : List Char → Nat → Except Error (List (IpAddr × Nat)) :=
  fun _ _ => Except.ok []

def qnErrOracle : Nat → Except Error (List (IpAddr × Nat)) :=
  fun _ => Except.error (Error.transport 0)

/-- Witness for C2 at a concrete non-global name (`"a"` with ndots 2): a
single suffix-free lookup of the trimmed name. -/
theorem c2_global_scope_policy_witness :
    (dns_with_search parseOkOracle qnEmptyOracle [['s']] [0] 2 ['a']).attempted =
      [trimTrailingDots ['a']] :=
  (c2_global_scope_policy parseOkOracle qnEmptyOracle [['s']] [0] 2 ['a']).2.1
    (by decide)

theorem dns_lookup_isOk (qn : Nat → Except Error (List (IpAddr × Nat)))
    (nss : List Nat) : ∃ v, dns_lookup qn nss = Except.ok v := by
  induction nss with
  | nil => exact ⟨[], rfl⟩
  | cons ns rest ih =>
    cases h : qn ns with
    | ok addrs => exact ⟨addrs, by simp [dns_lookup, h]⟩
    | error e =>
      obtain ⟨v, hv⟩ := ih
      exact ⟨v, by simp [dns_lookup, h, hv]⟩

theorem searchLoop_error_from_parse
    (parse : List Char → Except Error (List Char))
    (qn : List Char → Nat → Except Error (List (IpAddr × Nat)))
    (nss : List Nat) (cands : List (List Char)) (e : Error)
    (h : (searchLoop parse qn nss cands).result = Except.error e) :
    ∃ c, parse c = Except.error e := by
  induction cands with
  | nil => simp [searchLoop] at h
  | cons c rest ih =>
    cases hp : parse c with
    | error e2 =>
      simp [searchLoop, hp] at h
      exact ⟨c, by rw [hp, h]⟩
    | ok n =>
      cases hl : dns_lookup (qn n) nss with
      | ok addrs => simp [searchLoop, hp, hl] at h
      | error e2 =>
        obtain ⟨v, hv⟩ := dns_lookup_isOk (qn n) nss
        rw [hv] at hl
        exact absurd hl (by simp)

/-- Claim C3: per-nameserver failures are absorbed (the nameserver loop
never returns an error), exhausting all nameservers yields an empty `Ok`
collection, an exhausted (e.g. empty) search-suffix list yields an empty
`Ok` collection, and any error `dns_with_search` returns stems from a
candidate name that failed to parse — a construction-time error. -/
theorem c3_error_absorption (parse : List Char → Except Error (List Char))
    (qn : List Char → Nat → Except Error (List (IpAddr × Nat)))
    (search : List (List Char)) (nss : List Nat) (ndots : Nat)
    (name : List Char) :
    (∀ (f : Nat → Except Error (List (IpAddr × Nat))) (l : List Nat),
      ∃ v, dns_lookup f l = Except.ok v) ∧
    (∀ (f : Nat → Except Error (List (IpAddr × Nat))) (l : List Nat),
      (∀ ns ∈ l, ∃ e, f ns = Except.error e) →
      dns_lookup f l = Except.ok []) ∧
    (globalScope ndots name = true →
      (dns_with_search parse qn List.nil nss ndots name).result =
        Except.ok []) ∧
    (∀ e, (dns_with_search parse qn search nss ndots name).result =
        Except.error e →
      ∃ c, parse c = Except.error e) := by
  refine ⟨fun f l => dns_lookup_isOk f l, ?_, ?_, ?_⟩
  · intro f l h
    induction l with
    | nil => rfl
    | cons ns rest ih =>
      obtain ⟨e, he⟩ := h ns (by simp)
      simp [dns_lookup, he]
      exact ih (fun x hx => h x (by simp [hx]))
  · intro hgs
    simp [dns_with_search, hgs, searchCandidates, searchLoop]
  · intro e he
    by_cases hgs : globalScope ndots name
    · simp [dns_with_search, hgs] at he
      exact searchLoop_error_from_parse parse qn nss _ e he
    · cases hp : parse (trimTrailingDots name) with
      | error e2 =>
        simp [dns_with_search, hgs, hp] at he
        exact ⟨trimTrailingDots name, by rw [hp, he]⟩
      | ok n =>
        obtain ⟨v, hv⟩ := dns_lookup_isOk (qn n) nss
        simp [dns_with_search, hgs, hp, hv] at he

/-- Witness for C3: a nameserver list whose single entry always fails
yields the empty `Ok` collection, not an error. -/
theorem c3_error_absorption_witness :
    dns_lookup qnErrOracle [5] = Except.ok [] :=
  (c3_error_absorption parseOkOracle qnEmptyOracle [] [] 0 []).2.1
    qnErrOracle [5] (fun _ _ => ⟨Error.transport 0, rfl⟩)

/-- Witness for the amended C8 theorem at a concrete dotted name. -/
theorem c8_amended_witness :
    (trimTrailingDots ['a', '.', '.']).getLast? ≠ some '.' ∧
      ∃ k, ['a', '.', '.'] =
        trimTrailingDots ['a', '.', '.'] ++ List.replicate k '.' :=
  c8_amended ['a', '.', '.']
